import Mathlib

/-!
Verification of the Sheetcheater query-builder and date-utility code
(`src/query_builder.py`, `src/utils.py`).

The Python code is shallowly embedded: the mutable `LogQueryBuilder` object
becomes a structure threaded explicitly through each operation, and a Python
`raise ValueError(msg)` becomes an `Except.error` carrying the message
together with the builder state at the moment of the raise (in the source
every raise happens before any mutation, so that state is the caller's
builder unchanged).

The standard-library calls `datetime.strptime(s, "%Y-%m-%d")` and
`datetime.fromisoformat(s)` are embedded as executable parsers on
`List Char`.  CPython's `_strptime` compiles `"%Y-%m-%d"` to the regular
expression `\d{4}-(1[0-2]|0[1-9]|[1-9])-(3[01]|[12]\d|0[1-9]|[1-9])`
(anchored at the start, with a separate "unconverted data remains" check
that the whole string was consumed), after which the `datetime` constructor
rejects day numbers that do not exist in the given month and year 0.
`fromisoformat` requires the zero-padded `YYYY-MM-DD` date, optionally
followed by a one-character separator and a time of day
`HH[:MM[:SS[.fff or .ffffff]]]` with an optional `±HH:MM` offset.
Digits are modelled as ASCII digits.
-/

namespace Sheetcheater

/-- ASCII digit test, `48 ≤ code ≤ 57`. -/
def isDig (c : Char) : Bool := 48 ≤ c.toNat && c.toNat ≤ 57

/-- Numeric value of an ASCII digit character. -/
def dv (c : Char) : Nat := c.toNat - 48

/-- Value of a two-digit character pair. -/
def dv2 (a b : Char) : Nat := 10 * dv a + dv b

/-- Value of a digit string, most significant first. -/
def digitsToNat (l : List Char) : Nat := l.foldl (fun acc c => 10 * acc + dv c) 0

/-- Gregorian leap-year rule, as used by Python's `datetime`. -/
def isLeapYear (y : Nat) : Bool := y % 4 = 0 && (y % 100 != 0 || y % 400 = 0)

/-- Number of days in month `m` of year `y` (Python `calendar` rule). -/
def daysInMonth (y m : Nat) : Nat :=
  if m = 2 then (if isLeapYear y then 29 else 28)
  else if m = 4 || m = 6 || m = 9 || m = 11 then 30
  else 31

/-! ### Model of `datetime.fromisoformat` -/

/-- Timezone offset suffix `±HH:MM` accepted by `fromisoformat`. -/
def validTz : List Char → Bool
  | [sg, h1, h2, ':', m1, m2] =>
    (sg = '+' || sg = '-') && isDig h1 && isDig h2 && dv2 h1 h2 ≤ 23
      && isDig m1 && isDig m2 && dv2 m1 m2 ≤ 59
  | _ => false

/-- Fractional-second digits (exactly 3 or 6) with optional offset. -/
def validFrac (l : List Char) : Bool :=
  ((l.take 3).length = 3 && (l.take 3).all isDig
      && (l.drop 3 = [] || validTz (l.drop 3)))
  || ((l.take 6).length = 6 && (l.take 6).all isDig
      && (l.drop 6 = [] || validTz (l.drop 6)))

/-- What may follow the seconds field of an ISO time. -/
def validAfterSec : List Char → Bool
  | [] => true
  | '.' :: rest => validFrac rest
  | l => validTz l

/-- What may follow the minutes field of an ISO time. -/
def validAfterMin : List Char → Bool
  | [] => true
  | ':' :: s1 :: s2 :: rest =>
    isDig s1 && isDig s2 && dv2 s1 s2 ≤ 59 && validAfterSec rest
  | l => validTz l

/-- What may follow the hours field of an ISO time. -/
def validAfterHour : List Char → Bool
  | [] => true
  | ':' :: m1 :: m2 :: rest =>
    isDig m1 && isDig m2 && dv2 m1 m2 ≤ 59 && validAfterMin rest
  | l => validTz l

/-- ISO time of day `HH[:MM[:SS[.frac]]][±HH:MM]`. -/
def validIsoTime : List Char → Bool
  | h1 :: h2 :: rest => isDig h1 && isDig h2 && dv2 h1 h2 ≤ 23 && validAfterHour rest
  | _ => false

/-- Zero-padded ISO calendar date `YYYY-MM-DD`, checked against the
`datetime` constructor's range requirements (year at least 1, day existing
in the month). -/
def parseIsoDate : List Char → Option (Nat × Nat × Nat)
  | [y1, y2, y3, y4, '-', m1, m2, '-', d1, d2] =>
    if isDig y1 && isDig y2 && isDig y3 && isDig y4
        && isDig m1 && isDig m2 && isDig d1 && isDig d2 then
      let y := 1000 * dv y1 + 100 * dv y2 + 10 * dv y3 + dv y4
      let m := dv2 m1 m2
      let d := dv2 d1 d2
      if 1 ≤ y && 1 ≤ m && m ≤ 12 && 1 ≤ d && d ≤ daysInMonth y m then
        some (y, m, d)
      else none
    else none
  | _ => none

/-- Model of `datetime.fromisoformat`: the calendar-date fields of the
parsed value, or `none` when Python raises `ValueError`.  The date part is
the first ten characters; a longer string must continue with a single
separator character and a valid time of day. -/
def fromisoformat (s : String) : Option (Nat × Nat × Nat) :=
  let cs := s.data
  match parseIsoDate (cs.take 10) with
  | none => none
  | some ymd =>
    match cs.drop 10 with
    | [] => some ymd
    | _ :: timePart => if validIsoTime timePart then some ymd else none

/-! ### Model of `datetime.strptime(s, "%Y-%m-%d")` -/

/-- The one-digit alternative `[1-9]` of the `%m`/`%d` patterns. -/
def digit1ok (c : Char) : Bool := 49 ≤ c.toNat && c.toNat ≤ 57

/-- The two-digit month alternatives `1[0-2]|0[1-9]` of `%m`. -/
def month2ok (a b : Char) : Bool :=
  (a.toNat = 48 && 49 ≤ b.toNat && b.toNat ≤ 57)
    || (a.toNat = 49 && 48 ≤ b.toNat && b.toNat ≤ 50)

/-- The two-digit day alternatives `3[01]|[12]\d|0[1-9]` of `%d`. -/
def day2ok (a b : Char) : Bool :=
  (a.toNat = 51 && (b.toNat = 48 || b.toNat = 49))
    || ((a.toNat = 49 || a.toNat = 50) && isDig b)
    || (a.toNat = 48 && 49 ≤ b.toNat && b.toNat ≤ 57)

/-- Month-dash-day tail of the `%Y-%m-%d` match.  The regular expression
alternation together with the whole-string-consumed check admits exactly
the shapes `M-D`, `MM-D`, `M-DD`, `MM-DD`; on four characters the
two-digit-month reading is attempted before the two-digit-day reading,
exactly as the backtracking engine does. -/
def parseMDregex : List Char → Option (Nat × Nat)
  | [a, b, c] =>
    if b = '-' && digit1ok a && digit1ok c then some (dv a, dv c) else none
  | [a, b, c, d] =>
    if c = '-' && month2ok a b && digit1ok d then some (dv2 a b, dv d)
    else if b = '-' && digit1ok a && day2ok c d then some (dv a, dv2 c d)
    else none
  | [a, b, c, d, e] =>
    if c = '-' && month2ok a b && day2ok d e then some (dv2 a b, dv2 d e)
    else none
  | _ => none

/-- The `%Y-%m-%d` match on a character list: four digits (`%Y`), the
literal hyphen, then the month-day tail, followed by the `datetime`
constructor's range checks. -/
def strptimeList : List Char → Option (Nat × Nat × Nat)
  | y1 :: y2 :: y3 :: y4 :: '-' :: rest =>
    if isDig y1 && isDig y2 && isDig y3 && isDig y4 then
      match parseMDregex rest with
      | some (m, d) =>
        let y := 1000 * dv y1 + 100 * dv y2 + 10 * dv y3 + dv y4
        if 1 ≤ y && d ≤ daysInMonth y m then some (y, m, d) else none
      | none => none
    else none
  | _ => none

/-- Model of `datetime.strptime(s, "%Y-%m-%d")` followed by the `datetime`
constructor: the parsed calendar date, or `none` when Python raises
`ValueError`. -/
def strptimeYMD (s : String) : Option (Nat × Nat × Nat) :=
  strptimeList s.data

/-! ### `src/utils.py` -/

/-- Zero-padded decimal rendering of width `w`. -/
def pad (w : Nat) (n : Nat) : String :=
  let s := toString n
  String.mk (List.replicate (w - s.length) '0') ++ s

/-- The `%Y-%m-%d` / `date.isoformat` rendering of a calendar date. -/
def fmtYMD (y m d : Nat) : String :=
  pad 4 y ++ "-" ++ pad 2 m ++ "-" ++ pad 2 d

/-- Error message of `validate_date_format` (the appended `str(e)` detail
coming from the standard library is abstracted away). -/
def dateFormatErr : String := "Invalid date format. Use YYYY-MM-DD."

/-- Embedding of `utils.validate_date_format`: parse with `strptime("%Y-%m-%d")` and
return `datetime.isoformat()` of the result, which for a midnight value is
the zero-padded date followed by `T00:00:00`. -/
def validate_date_format (date_str : String) : Except String String :=
  match strptimeYMD date_str with
  | some (y, m, d) => Except.ok (fmtYMD y m d ++ "T00:00:00")
  | none => Except.error dateFormatErr

/-- Embedding of `utils.format_date_for_display`: reformat a `fromisoformat`-parsable
string as `%Y-%m-%d`; on parse failure return the input unchanged. -/
def format_date_for_display (iso_date : String) : String :=
  match fromisoformat iso_date with
  | some (y, m, d) => fmtYMD y m d
  | none => iso_date

/-! ### `src/query_builder.py` -/

/-- A bound SQL parameter value (Python lets the list hold strings,
integers and floats; floats are modelled as rationals). -/
inductive Param where
  | str : String → Param
  | int : Int → Param
  | rat : ℚ → Param
deriving DecidableEq

/-- The state of a `LogQueryBuilder`: the accumulated condition fragments
and the parallel parameter list. -/
structure LogQueryBuilder where
  conditions : List String
  parameters : List Param
deriving DecidableEq

/-- Embedding of `LogQueryBuilder.__init__`: both sequences start empty. -/
def initB : LogQueryBuilder := ⟨[], []⟩

/-- The characters removed by `_sanitize_string`'s regular expression
`['";\\]`: single quote, double quote, semicolon, backslash. -/
def removedChars : List Char := [Char.ofNat 39, Char.ofNat 34, ';', Char.ofNat 92]

/-- Python `str.strip()`: drop whitespace from both ends. -/
def pyStrip (s : String) : String :=
  String.mk (((s.data.dropWhile Char.isWhitespace).reverse.dropWhile
    Char.isWhitespace).reverse)

/-- Embedding of `LogQueryBuilder._sanitize_string`: delete the four blacklisted
characters, then strip surrounding whitespace. -/
def LogQueryBuilder._sanitize_string (value : String) : String :=
  pyStrip (String.mk (value.data.filter (fun c => !removedChars.contains c)))

/-- Embedding of `LogQueryBuilder._validate_date`: `datetime.fromisoformat` succeeds. -/
def LogQueryBuilder._validate_date (date_str : String) : Bool :=
  (fromisoformat date_str).isSome

/-- Embedding of `LogQueryBuilder._validate_numeric_range`. -/
def LogQueryBuilder._validate_numeric_range (min_val max_val : ℚ) : Bool :=
  min_val ≤ max_val

/-- Embedding of `LogQueryBuilder.add_date_range`: raise unless both bounds are
`fromisoformat`-parsable, else append one fragment and two parameters. -/
def LogQueryBuilder.add_date_range (b : LogQueryBuilder)
    (start_date end_date : String) :
    Except (String × LogQueryBuilder) LogQueryBuilder :=
  if !(LogQueryBuilder._validate_date start_date
      && LogQueryBuilder._validate_date end_date) then
    Except.error ("Invalid date format. Use ISO format (YYYY-MM-DD)", b)
  else
    Except.ok ⟨b.conditions ++ ["timestamp BETWEEN ? AND ?"],
      b.parameters ++ [Param.str start_date, Param.str end_date]⟩

/-- Embedding of `LogQueryBuilder.add_function_filter`: raise when the sanitized name is
empty, else append one fragment and the sanitized value. -/
def LogQueryBuilder.add_function_filter (b : LogQueryBuilder)
    (function_name : String) :
    Except (String × LogQueryBuilder) LogQueryBuilder :=
  let sanitized_name := LogQueryBuilder._sanitize_string function_name
  if sanitized_name = "" then
    Except.error ("Invalid function name", b)
  else
    Except.ok ⟨b.conditions ++ ["function_name = ?"],
      b.parameters ++ [Param.str sanitized_name]⟩

/-- Embedding of `LogQueryBuilder.add_token_range`: raise when `min > max`, else append
one fragment and the two integer bounds. -/
def LogQueryBuilder.add_token_range (b : LogQueryBuilder)
    (min_tokens max_tokens : Int) :
    Except (String × LogQueryBuilder) LogQueryBuilder :=
  if !(LogQueryBuilder._validate_numeric_range min_tokens max_tokens) then
    Except.error ("Invalid token range: min must be less than or equal to max", b)
  else
    Except.ok ⟨b.conditions ++ ["total_tokens BETWEEN ? AND ?"],
      b.parameters ++ [Param.int min_tokens, Param.int max_tokens]⟩

/-- Embedding of `LogQueryBuilder.add_cost_range`: raise when `min > max`, else append
one fragment and the two cost bounds. -/
def LogQueryBuilder.add_cost_range (b : LogQueryBuilder)
    (min_cost max_cost : ℚ) :
    Except (String × LogQueryBuilder) LogQueryBuilder :=
  if !(LogQueryBuilder._validate_numeric_range min_cost max_cost) then
    Except.error ("Invalid cost range: min must be less than or equal to max", b)
  else
    Except.ok ⟨b.conditions ++ ["cost BETWEEN ? AND ?"],
      b.parameters ++ [Param.rat min_cost, Param.rat max_cost]⟩

/-- The fixed SELECT prefix of every built query. -/
def baseSelect : String :=
  "SELECT timestamp, function_name, prompt_tokens, completion_tokens, total_tokens, cost, output FROM token_logs"

/-- Python `" AND ".join`. -/
def joinAnd : List String → String
  | [] => ""
  | [s] => s
  | s :: rest => s ++ " AND " ++ joinAnd rest

/-- The query text assembled by `build` before the optional LIMIT suffix:
base SELECT, WHERE clause when conditions exist, fixed ORDER BY. -/
def noLimitText (conds : List String) : String :=
  (if conds.isEmpty then baseSelect
   else baseSelect ++ " WHERE " ++ joinAnd conds) ++ " ORDER BY timestamp DESC"

/-- The check `limit is not None and limit < 0`. -/
def limitNeg : Option Int → Bool
  | none => false
  | some l => l < 0

/-- Python truthiness of the `limit` argument: present and nonzero. -/
def limitTruthy : Option Int → Bool
  | none => false
  | some l => l != 0

/-- Value of a present limit. -/
def limitVal : Option Int → Int
  | none => 0
  | some l => l

/-- Embedding of `LogQueryBuilder.build`: validate the limit, assemble the text, and —
when the limit is truthy — append it to the builder's own parameter list.
The returned parameter list is that same (aliased) list, so the result is
`(query, parameters, builder after the call)`. -/
def LogQueryBuilder.build (b : LogQueryBuilder) (limit : Option Int) :
    Except (String × LogQueryBuilder) (String × List Param × LogQueryBuilder) :=
  if limitNeg limit then
    Except.error ("Limit must be a positive number", b)
  else if limitTruthy limit then
    Except.ok (noLimitText b.conditions ++ " LIMIT ?",
      b.parameters ++ [Param.int (limitVal limit)],
      ⟨b.conditions, b.parameters ++ [Param.int (limitVal limit)]⟩)
  else
    Except.ok (noLimitText b.conditions, b.parameters, b)

/-! ### Call sequences -/

/-- One `add_*` call together with its arguments. -/
inductive FilterOp where
  | dateRange : String → String → FilterOp
  | functionFilter : String → FilterOp
  | tokenRange : Int → Int → FilterOp
  | costRange : ℚ → ℚ → FilterOp

/-- The condition fragment appended by a successful call. -/
def FilterOp.fragment : FilterOp → String
  | .dateRange _ _ => "timestamp BETWEEN ? AND ?"
  | .functionFilter _ => "function_name = ?"
  | .tokenRange _ _ => "total_tokens BETWEEN ? AND ?"
  | .costRange _ _ => "cost BETWEEN ? AND ?"

/-- The parameters appended by a successful call. -/
def FilterOp.opParams : FilterOp → List Param
  | .dateRange s e => [Param.str s, Param.str e]
  | .functionFilter n => [Param.str (LogQueryBuilder._sanitize_string n)]
  | .tokenRange lo hi => [Param.int lo, Param.int hi]
  | .costRange lo hi => [Param.rat lo, Param.rat hi]

/-- Dispatch one call on the builder. -/
def applyOp (b : LogQueryBuilder) :
    FilterOp → Except (String × LogQueryBuilder) LogQueryBuilder
  | .dateRange s e => b.add_date_range s e
  | .functionFilter n => b.add_function_filter n
  | .tokenRange lo hi => b.add_token_range lo hi
  | .costRange lo hi => b.add_cost_range lo hi

/-- Run a chain of `add_*` calls; the first failure aborts the chain. -/
def applyOps (b : LogQueryBuilder) :
    List FilterOp → Except (String × LogQueryBuilder) LogQueryBuilder
  | [] => Except.ok b
  | op :: rest =>
    match applyOp b op with
    | Except.ok b' => applyOps b' rest
    | Except.error e => Except.error e

/-- A builder state producible by some chain of successful `add_*` calls
starting from a fresh builder. -/
def Reachable (b : LogQueryBuilder) : Prop :=
  ∃ ops : List FilterOp, applyOps initB ops = Except.ok b

/-- Number of `?` placeholders in a piece of query text. -/
def countQ (s : String) : Nat := s.data.count '?'

/-- Total placeholder count of a fragment list. -/
def countQs (l : List String) : Nat := (l.map countQ).sum

/-- The builder invariant: accumulated placeholders and parameters agree. -/
def placeholdersOK (b : LogQueryBuilder) : Prop :=
  countQs b.conditions = b.parameters.length

/-- Does `needle` occur at the head of `hay`? -/
def subAt : List Char → List Char → Bool
  | [], _ => true
  | _ :: _, [] => false
  | a :: as, b :: bs => a = b && subAt as bs

/-- Does `needle` occur anywhere inside `hay`? -/
def hasSub (needle : List Char) : List Char → Bool
  | [] => subAt needle []
  | b :: bs => subAt needle (b :: bs) || hasSub needle bs

/-- Does the query text contain a LIMIT keyword? -/
def containsLIMIT (s : String) : Bool := hasSub "LIMIT".data s.data

/-- The literal reading of the claim's "YYYY-MM-DD format": four digits,
hyphen, two digits, hyphen, two digits. -/
def inShapeYYYYMMDD (s : String) : Bool :=
  match s.data with
  | [y1, y2, y3, y4, '-', m1, m2, '-', d1, d2] =>
    isDig y1 && isDig y2 && isDig y3 && isDig y4
      && isDig m1 && isDig m2 && isDig d1 && isDig d2
  | _ => false

/-- Modelled from the spec's words for the amended C6: the input is a
four-digit year, a one- or two-digit month and a one- or two-digit day
separated by single hyphens, denoting the valid calendar date `(y, m, d)`.
This is the independent characterization against which the
`strptime`-derived parser is checked. -/
def SpecDateAt (cs : List Char) (y m d : Nat) : Prop :=
  ∃ ys ms ds : List Char,
    cs = ys ++ '-' :: (ms ++ '-' :: ds)
    ∧ ys.length = 4 ∧ (∀ c ∈ ys, isDig c)
    ∧ (ms.length = 1 ∨ ms.length = 2) ∧ (∀ c ∈ ms, isDig c)
    ∧ (ds.length = 1 ∨ ds.length = 2) ∧ (∀ c ∈ ds, isDig c)
    ∧ digitsToNat ys = y ∧ digitsToNat ms = m ∧ digitsToNat ds = d
    ∧ 1 ≤ y ∧ 1 ≤ m ∧ m ≤ 12 ∧ 1 ≤ d ∧ d ≤ daysInMonth y m

/-- The SQL-injection attempt from the spec's example, with the single
quote written by code point. -/
def robertInput : String :=
  "Robert" ++ String.mk [Char.ofNat 39] ++ "); DROP TABLE logs;--"

/-! ### Supporting lemmas -/

theorem data_append (s t : String) : (s ++ t).data = s.data ++ t.data := by
  cases s; cases t; rfl

theorem countQ_append (s t : String) : countQ (s ++ t) = countQ s + countQ t := by
  simp [countQ, data_append, List.count_append]

theorem countQs_cons (s : String) (l : List String) :
    countQs (s :: l) = countQ s + countQs l := by
  simp [countQs]

theorem countQ_joinAnd (l : List String) : countQ (joinAnd l) = countQs l := by
  induction l with
  | nil => rfl
  | cons s rest ih =>
    cases rest with
    | nil => simp [joinAnd, countQs]
    | cons t r =>
      have h0 : countQ " AND " = 0 := by decide
      rw [show joinAnd (s :: t :: r) = s ++ " AND " ++ joinAnd (t :: r) from rfl,
        countQ_append, countQ_append, ih, h0, countQs_cons s (t :: r)]
      omega

theorem countQ_noLimitText (conds : List String) :
    countQ (noLimitText conds) = countQs conds := by
  have hb : countQ baseSelect = 0 := by decide
  have hw : countQ " WHERE " = 0 := by decide
  have ho : countQ " ORDER BY timestamp DESC" = 0 := by decide
  cases conds with
  | nil => decide
  | cons c r =>
    rw [noLimitText, countQ_append, if_neg (by simp), countQ_append, countQ_append,
      countQ_joinAnd, hb, hw, ho]
    omega

theorem applyOp_ok {b : LogQueryBuilder} {op : FilterOp} {b' : LogQueryBuilder}
    (h : applyOp b op = Except.ok b') :
    b'.conditions = b.conditions ++ [op.fragment]
      ∧ b'.parameters = b.parameters ++ op.opParams := by
  cases op <;>
    simp only [applyOp, LogQueryBuilder.add_date_range, LogQueryBuilder.add_function_filter,
      LogQueryBuilder.add_token_range, LogQueryBuilder.add_cost_range] at h <;>
    split at h <;>
    first
      | (injection h with h2; subst h2; exact ⟨rfl, rfl⟩)
      | injection h

theorem applyOp_error {b : LogQueryBuilder} {op : FilterOp} {e : String × LogQueryBuilder}
    (h : applyOp b op = Except.error e) : e.2 = b := by
  cases op <;>
    simp only [applyOp, LogQueryBuilder.add_date_range, LogQueryBuilder.add_function_filter,
      LogQueryBuilder.add_token_range, LogQueryBuilder.add_cost_range] at h <;>
    split at h <;>
    first
      | (injection h with h2; subst h2; rfl)
      | injection h

theorem applyOps_ok_shape : ∀ (ops : List FilterOp) (b0 b : LogQueryBuilder),
    applyOps b0 ops = Except.ok b →
    b.conditions = b0.conditions ++ ops.map FilterOp.fragment
      ∧ b.parameters = b0.parameters ++ (ops.map FilterOp.opParams).flatten := by
  intro ops
  induction ops with
  | nil =>
    intro b0 b h
    simp only [applyOps] at h
    injection h with h
    subst h
    simp
  | cons op rest ih =>
    intro b0 b h
    simp only [applyOps] at h
    cases hop : applyOp b0 op with
    | error e => rw [hop] at h; injection h
    | ok b1 =>
      rw [hop] at h
      obtain ⟨hc1, hp1⟩ := applyOp_ok hop
      obtain ⟨hc2, hp2⟩ := ih b1 b h
      refine ⟨?_, ?_⟩
      · rw [hc2, hc1]; simp
      · rw [hp2, hp1]; simp

theorem countQ_fragment (op : FilterOp) : countQ op.fragment = op.opParams.length := by
  cases op <;> rfl

theorem countQs_fragments (ops : List FilterOp) :
    countQs (ops.map FilterOp.fragment) = ((ops.map FilterOp.opParams).flatten).length := by
  induction ops with
  | nil => rfl
  | cons op rest ih =>
    simp only [List.map_cons, countQs_cons, List.flatten_cons, List.length_append, ih,
      countQ_fragment]

theorem reachable_inv {b : LogQueryBuilder} (h : Reachable b) : placeholdersOK b := by
  obtain ⟨ops, hops⟩ := h
  obtain ⟨hc, hp⟩ := applyOps_ok_shape ops initB b hops
  unfold placeholdersOK
  rw [hc, hp]
  simpa [initB] using countQs_fragments ops

theorem build_neg (b : LogQueryBuilder) (l : Int) (h : l < 0) :
    b.build (some l) = Except.error ("Limit must be a positive number", b) := by
  simp [LogQueryBuilder.build, limitNeg, h]

theorem build_pos (b : LogQueryBuilder) (l : Int) (h : 0 < l) :
    b.build (some l) = Except.ok (noLimitText b.conditions ++ " LIMIT ?",
      b.parameters ++ [Param.int l],
      ⟨b.conditions, b.parameters ++ [Param.int l]⟩) := by
  simp only [LogQueryBuilder.build, limitNeg, limitTruthy, limitVal]
  rw [if_neg (by simp; omega), if_pos (by simp; omega)]

theorem build_none (b : LogQueryBuilder) :
    b.build none = Except.ok (noLimitText b.conditions, b.parameters, b) := by
  simp [LogQueryBuilder.build, limitNeg, limitTruthy]

theorem build_zero (b : LogQueryBuilder) : b.build (some 0) = b.build none := by
  simp [LogQueryBuilder.build, limitNeg, limitTruthy]

theorem noI_fragment (op : FilterOp) : 'I' ∉ op.fragment.data := by
  cases op <;> simp only [FilterOp.fragment] <;> decide

theorem noI_joinAnd (l : List String) (h : ∀ s ∈ l, 'I' ∉ s.data) :
    'I' ∉ (joinAnd l).data := by
  induction l with
  | nil => simp [joinAnd]
  | cons s rest ih =>
    cases rest with
    | nil => simpa [joinAnd] using h s (by simp)
    | cons t r =>
      rw [show joinAnd (s :: t :: r) = s ++ " AND " ++ joinAnd (t :: r) from rfl,
        data_append, data_append]
      intro hmem
      rcases List.mem_append.mp hmem with hmem | hmem
      · rcases List.mem_append.mp hmem with hmem | hmem
        · exact h s (by simp) hmem
        · revert hmem; decide
      · exact ih (fun u hu => h u (List.mem_cons_of_mem s hu)) hmem

theorem noI_noLimitText (conds : List String) (h : ∀ s ∈ conds, 'I' ∉ s.data) :
    'I' ∉ (noLimitText conds).data := by
  have hb : 'I' ∉ baseSelect.data := by decide
  have ho : 'I' ∉ " ORDER BY timestamp DESC".data := by decide
  have hw : 'I' ∉ " WHERE ".data := by decide
  rw [noLimitText, data_append]
  intro hmem
  rcases List.mem_append.mp hmem with hmem | hmem
  · split at hmem
    · exact hb hmem
    · rw [data_append, data_append] at hmem
      rcases List.mem_append.mp hmem with hmem | hmem
      · rcases List.mem_append.mp hmem with hmem | hmem
        · exact hb hmem
        · exact hw hmem
      · exact noI_joinAnd conds h hmem
  · exact ho hmem

theorem subAt_mem : ∀ (n hay : List Char), subAt n hay = true → ∀ c ∈ n, c ∈ hay := by
  intro n
  induction n with
  | nil => simp
  | cons a as ih =>
    intro hay hs c hc
    cases hay with
    | nil => simp [subAt] at hs
    | cons b bs =>
      rw [subAt, Bool.and_eq_true] at hs
      obtain ⟨hab, hrest⟩ := hs
      rcases List.mem_cons.mp hc with hc | hc
      · subst hc
        rw [of_decide_eq_true hab]
        exact List.mem_cons_self b bs
      · exact List.mem_cons_of_mem b (ih bs hrest c hc)

theorem hasSub_mem (n : List Char) :
    ∀ hay, hasSub n hay = true → ∀ c ∈ n, c ∈ hay := by
  intro hay
  induction hay with
  | nil =>
    intro hs c hc
    cases n with
    | nil => simp at hc
    | cons a as => simp [hasSub, subAt] at hs
  | cons b bs ih =>
    intro hs c hc
    rw [hasSub, Bool.or_eq_true] at hs
    rcases hs with hs | hs
    · exact subAt_mem n (b :: bs) hs c hc
    · exact List.mem_cons_of_mem b (ih hs c hc)

theorem containsLIMIT_reachable (conds : List String)
    (h : ∀ s ∈ conds, 'I' ∉ s.data) :
    containsLIMIT (noLimitText conds) = false := by
  cases hcl : containsLIMIT (noLimitText conds) with
  | false => rfl
  | true =>
    exact absurd (hasSub_mem "LIMIT".data _ hcl 'I' (by decide))
      (noI_noLimitText conds h)

theorem build_ok {b : LogQueryBuilder} {lim : Option Int} {q : String}
    {ps : List Param} {b2 : LogQueryBuilder}
    (h : b.build lim = Except.ok (q, ps, b2)) :
    q = noLimitText b.conditions ++ (if limitTruthy lim then " LIMIT ?" else "")
      ∧ ps = b.parameters
        ++ (if limitTruthy lim then [Param.int (limitVal lim)] else []) := by
  rw [LogQueryBuilder.build] at h
  split at h
  · injection h
  · cases htr : limitTruthy lim <;> rw [htr] at h <;> simp only [Bool.true_eq_false,
      Bool.false_eq_true, if_true, if_false, ite_true, ite_false] at h <;>
      injection h with h <;> simp only [Prod.mk.injEq] at h <;>
      obtain ⟨hq, hps, _⟩ := h <;> subst hq <;> subst hps <;> simp

/-! ### Claims -/

/-- C1: for every valid chain of `add_*` calls on a fresh builder followed
by one successful `build` (with no limit or a valid one), the number of `?`
placeholders in the returned query text equals the length of the returned
parameter list. -/
theorem claim_C1 (ops : List FilterOp) (b : LogQueryBuilder) (lim : Option Int)
    (q : String) (ps : List Param) (b2 : LogQueryBuilder)
    (h1 : applyOps initB ops = Except.ok b)
    (h2 : b.build lim = Except.ok (q, ps, b2)) :
    countQ q = ps.length := by
  have hinv : placeholdersOK b := reachable_inv ⟨ops, h1⟩
  unfold placeholdersOK at hinv
  obtain ⟨hq, hps⟩ := build_ok h2
  subst hq
  subst hps
  rw [countQ_append, countQ_noLimitText]
  have hL : countQ " LIMIT ?" = 1 := by decide
  have hE : countQ "" = 0 := by decide
  cases htr : limitTruthy lim <;> simp [hL, hE, hinv]

/-- C1 witness: a concrete chain of two filters and a limit of 5. -/
theorem claim_C1_witness :
    countQ "SELECT timestamp, function_name, prompt_tokens, completion_tokens, total_tokens, cost, output FROM token_logs WHERE function_name = ? AND total_tokens BETWEEN ? AND ? ORDER BY timestamp DESC LIMIT ?"
      = [Param.str "foo", Param.int 1, Param.int 5, Param.int 5].length :=
  claim_C1 [FilterOp.functionFilter "foo", FilterOp.tokenRange 1 5]
    ⟨["function_name = ?", "total_tokens BETWEEN ? AND ?"],
      [Param.str "foo", Param.int 1, Param.int 5]⟩
    (some 5) _ _
    ⟨["function_name = ?", "total_tokens BETWEEN ? AND ?"],
      [Param.str "foo", Param.int 1, Param.int 5, Param.int 5]⟩
    rfl rfl

/-- C2: the returned parameter list is ordered as the filters were added
(the query fragments appear in addition order, each filter contributes its
parameters in fragment order, and a truthy limit parameter comes last). -/
theorem claim_C2 (ops : List FilterOp) (b : LogQueryBuilder) (lim : Option Int)
    (q : String) (ps : List Param) (b2 : LogQueryBuilder)
    (h1 : applyOps initB ops = Except.ok b)
    (h2 : b.build lim = Except.ok (q, ps, b2)) :
    q = noLimitText (ops.map FilterOp.fragment)
        ++ (if limitTruthy lim then " LIMIT ?" else "")
      ∧ ps = (ops.map FilterOp.opParams).flatten
        ++ (if limitTruthy lim then [Param.int (limitVal lim)] else []) := by
  obtain ⟨hc, hp⟩ := applyOps_ok_shape ops initB b h1
  obtain ⟨hq, hps⟩ := build_ok h2
  rw [hq, hps, hc, hp]
  simp [initB]

/-- C2 witness: the same concrete chain, checked against the claim's
normal form. -/
theorem claim_C2_witness :
    "SELECT timestamp, function_name, prompt_tokens, completion_tokens, total_tokens, cost, output FROM token_logs WHERE function_name = ? AND total_tokens BETWEEN ? AND ? ORDER BY timestamp DESC LIMIT ?"
        = noLimitText ([FilterOp.functionFilter "foo", FilterOp.tokenRange 1 5].map
            FilterOp.fragment)
          ++ (if limitTruthy (some 5) then " LIMIT ?" else "")
      ∧ [Param.str "foo", Param.int 1, Param.int 5, Param.int 5]
        = ([FilterOp.functionFilter "foo", FilterOp.tokenRange 1 5].map
            FilterOp.opParams).flatten
          ++ (if limitTruthy (some 5) then [Param.int (limitVal (some 5))] else []) :=
  claim_C2 [FilterOp.functionFilter "foo", FilterOp.tokenRange 1 5]
    ⟨["function_name = ?", "total_tokens BETWEEN ? AND ?"],
      [Param.str "foo", Param.int 1, Param.int 5]⟩
    (some 5) _ _
    ⟨["function_name = ?", "total_tokens BETWEEN ? AND ?"],
      [Param.str "foo", Param.int 1, Param.int 5, Param.int 5]⟩
    rfl rfl

/-- C3: every failing `add_*` call reports its error with the builder state
unchanged (the raise happens before any append), and in particular
`add_token_range 10 5` on a fresh builder fails with both internal
sequences still empty. -/
theorem claim_C3 :
    (∀ (b : LogQueryBuilder) (op : FilterOp) (e : String × LogQueryBuilder),
      applyOp b op = Except.error e → e.2 = b)
    ∧ LogQueryBuilder.add_token_range initB 10 5 =
        Except.error ("Invalid token range: min must be less than or equal to max", initB)
    ∧ initB.conditions.length = 0 ∧ initB.parameters.length = 0 :=
  ⟨fun _ _ _ h => applyOp_error h, rfl, rfl, rfl⟩

/-- C3 witness: the unchanged-state fact applied to the concrete failing
`add_token_range 10 5` call. -/
theorem claim_C3_witness :
    ("Invalid token range: min must be less than or equal to max", initB).2 = initB :=
  claim_C3.1 initB (FilterOp.tokenRange 10 5)
    ("Invalid token range: min must be less than or equal to max", initB) rfl

/-- C4: `build` with limit 0 behaves exactly like `build` with no limit —
it succeeds, emits no LIMIT clause (on any reachable builder) and appends
no parameter; a negative limit raises; a positive limit appends a trailing
LIMIT clause and the limit parameter after all filter parameters. -/
theorem claim_C4 :
    (∀ b : LogQueryBuilder, b.build (some 0) = b.build none)
    ∧ (∀ b : LogQueryBuilder,
        b.build none = Except.ok (noLimitText b.conditions, b.parameters, b))
    ∧ (∀ b : LogQueryBuilder, Reachable b →
        containsLIMIT (noLimitText b.conditions) = false)
    ∧ (∀ (b : LogQueryBuilder) (l : Int), l < 0 →
        b.build (some l) = Except.error ("Limit must be a positive number", b))
    ∧ (∀ (b : LogQueryBuilder) (l : Int), 0 < l →
        b.build (some l) = Except.ok (noLimitText b.conditions ++ " LIMIT ?",
          b.parameters ++ [Param.int l],
          ⟨b.conditions, b.parameters ++ [Param.int l]⟩)) := by
  refine ⟨build_zero, build_none, ?_, build_neg, build_pos⟩
  intro b hb
  obtain ⟨ops, hops⟩ := hb
  obtain ⟨hc, _⟩ := applyOps_ok_shape ops initB b hops
  apply containsLIMIT_reachable
  intro s hs
  rw [hc] at hs
  simp only [initB, List.nil_append, List.mem_map] at hs
  obtain ⟨op, _, hop⟩ := hs
  rw [← hop]
  exact noI_fragment op

/-- C4 witness: the limit rules at a fresh builder with limits 0, −1, 7. -/
theorem claim_C4_witness :
    initB.build (some 0) = initB.build none
    ∧ containsLIMIT (noLimitText initB.conditions) = false
    ∧ initB.build (some (-1)) = Except.error ("Limit must be a positive number", initB)
    ∧ initB.build (some 7) = Except.ok (noLimitText initB.conditions ++ " LIMIT ?",
        initB.parameters ++ [Param.int 7],
        ⟨initB.conditions, initB.parameters ++ [Param.int 7]⟩) :=
  ⟨claim_C4.1 initB, claim_C4.2.2.1 initB ⟨[], rfl⟩,
    claim_C4.2.2.2.1 initB (-1) (by decide), claim_C4.2.2.2.2 initB 7 (by decide)⟩

/-- C5: `add_function_filter` appends one single-placeholder equality
fragment bound to the sanitized name (blacklisted characters removed, then
whitespace-stripped), raising when the sanitized result is empty; the
spec's injection example succeeds with the sanitized parameter. -/
theorem claim_C5 :
    (∀ (b : LogQueryBuilder) (s : String),
      b.add_function_filter s =
        if LogQueryBuilder._sanitize_string s = "" then
          Except.error ("Invalid function name", b)
        else Except.ok ⟨b.conditions ++ ["function_name = ?"],
          b.parameters ++ [Param.str (LogQueryBuilder._sanitize_string s)]⟩)
    ∧ countQ "function_name = ?" = 1
    ∧ LogQueryBuilder._sanitize_string robertInput = "Robert) DROP TABLE logs--"
    ∧ initB.add_function_filter robertInput =
        Except.ok ⟨["function_name = ?"], [Param.str "Robert) DROP TABLE logs--"]⟩
    ∧ LogQueryBuilder._sanitize_string (String.mk [Char.ofNat 39, ' ', Char.ofNat 34]) = ""
    ∧ initB.add_function_filter (String.mk [Char.ofNat 39, ' ', Char.ofNat 34]) =
        Except.error ("Invalid function name", initB) :=
  ⟨fun _ _ => rfl, rfl, rfl, rfl, rfl, rfl⟩

/-- C7: `format_date_for_display` is total: a `fromisoformat`-parsable
input is reformatted as `%Y-%m-%d`, any other input is returned unchanged,
as on the spec's two examples. -/
theorem claim_C7 :
    (∀ s : String, format_date_for_display s =
      match fromisoformat s with
      | some (y, m, d) => fmtYMD y m d
      | none => s)
    ∧ format_date_for_display "2024-01-15T00:00:00" = "2024-01-15"
    ∧ format_date_for_display "not-a-date" = "not-a-date" :=
  ⟨fun _ => rfl, rfl, rfl⟩

/-- C8: `add_date_range` fails exactly when one of the bounds is not
`fromisoformat`-parsable, and otherwise appends one two-placeholder
fragment with the parameters `[start, end]` in that order; the bounds are
not compared, so a reversed range is accepted. -/
theorem claim_C8 :
    (∀ (b : LogQueryBuilder) (s e : String),
      b.add_date_range s e =
        if LogQueryBuilder._validate_date s && LogQueryBuilder._validate_date e then
          Except.ok ⟨b.conditions ++ ["timestamp BETWEEN ? AND ?"],
            b.parameters ++ [Param.str s, Param.str e]⟩
        else Except.error ("Invalid date format. Use ISO format (YYYY-MM-DD)", b))
    ∧ (∀ s : String, LogQueryBuilder._validate_date s = (fromisoformat s).isSome)
    ∧ countQ "timestamp BETWEEN ? AND ?" = 2
    ∧ initB.add_date_range "2025-06-01" "2024-01-01" =
        Except.ok ⟨["timestamp BETWEEN ? AND ?"],
          [Param.str "2025-06-01", Param.str "2024-01-01"]⟩
    ∧ initB.add_date_range "2024-01-15" "01/15/2024" =
        Except.error ("Invalid date format. Use ISO format (YYYY-MM-DD)", initB) := by
  refine ⟨?_, fun _ => rfl, rfl, rfl, rfl⟩
  intro b s e
  rw [LogQueryBuilder.add_date_range]
  cases h : (LogQueryBuilder._validate_date s && LogQueryBuilder._validate_date e) <;>
    simp [h]

/-- C9: a builder with no filters produces exactly the fixed SELECT text
with no WHERE clause and an empty parameter list; a positive limit adds a
trailing LIMIT clause and makes the parameter list the one-element list
holding the limit. -/
theorem claim_C9 :
    initB.build none = Except.ok
      ("SELECT timestamp, function_name, prompt_tokens, completion_tokens, total_tokens, cost, output FROM token_logs ORDER BY timestamp DESC",
        [], initB)
    ∧ ∀ l : Int, 0 < l → initB.build (some l) = Except.ok
      ("SELECT timestamp, function_name, prompt_tokens, completion_tokens, total_tokens, cost, output FROM token_logs ORDER BY timestamp DESC LIMIT ?",
        [Param.int l], ⟨[], [Param.int l]⟩) := by
  refine ⟨rfl, ?_⟩
  intro l hl
  rw [build_pos initB l hl]
  rfl

/-- C9 witness: the positive-limit case at limit 10. -/
theorem claim_C9_witness :
    initB.build (some 10) = Except.ok
      ("SELECT timestamp, function_name, prompt_tokens, completion_tokens, total_tokens, cost, output FROM token_logs ORDER BY timestamp DESC LIMIT ?",
        [Param.int 10], ⟨[], [Param.int 10]⟩) :=
  claim_C9.2 10 (by decide)

/-- C10: after a first `build` with a truthy limit the limit stays in the
builder's parameter sequence, so a second `build` with a truthy limit
returns a parameter list holding both limits — one entry longer than the
placeholder count of its query text — whereas `build` with no limit or
limit 0 leaves the builder unchanged. -/
theorem claim_C10 (b : LogQueryBuilder) (l1 l2 : Int)
    (hb : Reachable b) (h1 : 0 < l1) (h2 : 0 < l2) :
    b.build (some l1) = Except.ok (noLimitText b.conditions ++ " LIMIT ?",
      b.parameters ++ [Param.int l1], ⟨b.conditions, b.parameters ++ [Param.int l1]⟩)
    ∧ (LogQueryBuilder.mk b.conditions (b.parameters ++ [Param.int l1])).build (some l2)
      = Except.ok (noLimitText b.conditions ++ " LIMIT ?",
          b.parameters ++ [Param.int l1, Param.int l2],
          ⟨b.conditions, b.parameters ++ [Param.int l1, Param.int l2]⟩)
    ∧ Param.int l1 ∈ b.parameters ++ [Param.int l1, Param.int l2]
    ∧ Param.int l2 ∈ b.parameters ++ [Param.int l1, Param.int l2]
    ∧ countQ (noLimitText b.conditions ++ " LIMIT ?")
        < (b.parameters ++ [Param.int l1, Param.int l2]).length
    ∧ b.build none = Except.ok (noLimitText b.conditions, b.parameters, b)
    ∧ b.build (some 0) = Except.ok (noLimitText b.conditions, b.parameters, b) := by
  have hinv : placeholdersOK b := reachable_inv hb
  unfold placeholdersOK at hinv
  have hL : countQ " LIMIT ?" = 1 := by decide
  refine ⟨build_pos b l1 h1, ?_, by simp, by simp, ?_, build_none b, ?_⟩
  · rw [build_pos ⟨b.conditions, b.parameters ++ [Param.int l1]⟩ l2 h2]
    simp
  · rw [countQ_append, countQ_noLimitText, hL]
    simp only [List.length_append, List.length_cons, List.length_nil]
    omega
  · rw [build_zero, build_none]

/-- C10 witness: a fresh builder built twice with limits 5 and 3. -/
theorem claim_C10_witness :
    initB.build (some 5) = Except.ok (noLimitText initB.conditions ++ " LIMIT ?",
      initB.parameters ++ [Param.int 5],
      ⟨initB.conditions, initB.parameters ++ [Param.int 5]⟩)
    ∧ (LogQueryBuilder.mk initB.conditions (initB.parameters ++ [Param.int 5])).build
        (some 3)
      = Except.ok (noLimitText initB.conditions ++ " LIMIT ?",
          initB.parameters ++ [Param.int 5, Param.int 3],
          ⟨initB.conditions, initB.parameters ++ [Param.int 5, Param.int 3]⟩)
    ∧ Param.int 5 ∈ initB.parameters ++ [Param.int 5, Param.int 3]
    ∧ Param.int 3 ∈ initB.parameters ++ [Param.int 5, Param.int 3]
    ∧ countQ (noLimitText initB.conditions ++ " LIMIT ?")
        < (initB.parameters ++ [Param.int 5, Param.int 3]).length
    ∧ initB.build none = Except.ok (noLimitText initB.conditions, initB.parameters, initB)
    ∧ initB.build (some 0) = Except.ok (noLimitText initB.conditions, initB.parameters,
        initB) :=
  claim_C10 initB 5 3 ⟨[], rfl⟩ (by decide) (by decide)

theorem isDig_ne_dash {c : Char} (h : isDig c = true) : ¬(c = '-') :=
  fun hc => absurd (hc ▸ h) (by decide)

theorem dv_le_9 {a : Char} (h : isDig a = true) : dv a ≤ 9 := by
  simp only [isDig, dv, Bool.and_eq_true, decide_eq_true_eq] at *
  omega

theorem digitsToNat_one (a : Char) : digitsToNat [a] = dv a := by
  simp [digitsToNat]

theorem digitsToNat_two (a b : Char) : digitsToNat [a, b] = dv2 a b := by
  simp [digitsToNat, dv2, List.foldl]

theorem digitsToNat_four (a b c d : Char) :
    digitsToNat [a, b, c, d] = 1000 * dv a + 100 * dv b + 10 * dv c + dv d := by
  simp [digitsToNat, List.foldl]
  ring

theorem digit1ok_iff (a : Char) :
    digit1ok a = true ↔ (isDig a = true ∧ 1 ≤ dv a) := by
  simp only [digit1ok, isDig, dv, Bool.and_eq_true, decide_eq_true_eq]
  omega

theorem month2ok_iff (a b : Char) :
    month2ok a b = true ↔
      (isDig a = true ∧ isDig b = true ∧ 1 ≤ dv2 a b ∧ dv2 a b ≤ 12) := by
  simp only [month2ok, isDig, dv2, dv, Bool.and_eq_true, Bool.or_eq_true,
    decide_eq_true_eq]
  omega

theorem day2ok_iff (a b : Char) :
    day2ok a b = true ↔
      (isDig a = true ∧ isDig b = true ∧ 1 ≤ dv2 a b ∧ dv2 a b ≤ 31) := by
  simp only [day2ok, isDig, dv2, dv, Bool.and_eq_true, Bool.or_eq_true,
    decide_eq_true_eq]
  omega

theorem length_eq_four {l : List Char} (h : l.length = 4) :
    ∃ a b c d, l = [a, b, c, d] := by
  rcases l with _ | ⟨a, l⟩
  · simp at h
  rcases l with _ | ⟨b, l⟩
  · simp at h
  rcases l with _ | ⟨c, l⟩
  · simp at h
  rcases l with _ | ⟨d, l⟩
  · simp at h
  rcases l with _ | ⟨e, l⟩
  · exact ⟨a, b, c, d, rfl⟩
  · simp only [List.length_cons] at h
    omega

theorem forall_mem_single {P : Char → Prop} {a : Char} (h : P a) : ∀ c ∈ [a], P c := by
  intro c hc
  simp only [List.mem_singleton] at hc
  subst hc
  exact h

theorem forall_mem_pair {P : Char → Prop} {a b : Char} (h1 : P a) (h2 : P b) :
    ∀ c ∈ [a, b], P c := by
  intro c hc
  simp only [List.mem_cons, List.not_mem_nil, or_false] at hc
  rcases hc with rfl | rfl
  · exact h1
  · exact h2

theorem forall_mem_quad {P : Char → Prop} {a b c d : Char}
    (h1 : P a) (h2 : P b) (h3 : P c) (h4 : P d) : ∀ x ∈ [a, b, c, d], P x := by
  intro x hx
  simp only [List.mem_cons, List.not_mem_nil, or_false] at hx
  rcases hx with rfl | rfl | rfl | rfl
  · exact h1
  · exact h2
  · exact h3
  · exact h4

theorem daysInMonth_le_31 (y m : Nat) : daysInMonth y m ≤ 31 := by
  unfold daysInMonth
  split_ifs <;> omega

theorem parseMD_spec : ∀ {rest : List Char} {m d : Nat},
    parseMDregex rest = some (m, d) →
    ∃ ms ds : List Char, rest = ms ++ '-' :: ds
      ∧ (ms.length = 1 ∨ ms.length = 2) ∧ (∀ c ∈ ms, isDig c = true)
      ∧ (ds.length = 1 ∨ ds.length = 2) ∧ (∀ c ∈ ds, isDig c = true)
      ∧ digitsToNat ms = m ∧ digitsToNat ds = d
      ∧ 1 ≤ m ∧ m ≤ 12 ∧ 1 ≤ d ∧ d ≤ 31 := by
  intro rest m d h
  unfold parseMDregex at h
  split at h
  · rename_i a b c
    split at h
    · rename_i hg
      simp only [Bool.and_eq_true, decide_eq_true_eq] at hg
      obtain ⟨⟨hb, ha⟩, hc⟩ := hg
      subst hb
      injection h with h
      simp only [Prod.mk.injEq] at h
      obtain ⟨hm, hd⟩ := h
      obtain ⟨had, ha1⟩ := (digit1ok_iff a).mp ha
      obtain ⟨hcd, hc1⟩ := (digit1ok_iff c).mp hc
      have ha9 := dv_le_9 had
      have hc9 := dv_le_9 hcd
      exact ⟨[a], [c], rfl, Or.inl rfl, forall_mem_single had, Or.inl rfl,
        forall_mem_single hcd, by rw [digitsToNat_one, hm],
        by rw [digitsToNat_one, hd], by omega, by omega, by omega, by omega⟩
    · injection h
  · rename_i a b c d'
    split at h
    · rename_i hg
      simp only [Bool.and_eq_true, decide_eq_true_eq] at hg
      obtain ⟨⟨hcdash, hab⟩, hd'⟩ := hg
      subst hcdash
      injection h with h
      simp only [Prod.mk.injEq] at h
      obtain ⟨hm, hd⟩ := h
      obtain ⟨had, hbd, h1, h2⟩ := (month2ok_iff a b).mp hab
      obtain ⟨hd'd, hd'1⟩ := (digit1ok_iff d').mp hd'
      have h9 := dv_le_9 hd'd
      exact ⟨[a, b], [d'], rfl, Or.inr rfl, forall_mem_pair had hbd, Or.inl rfl,
        forall_mem_single hd'd, by rw [digitsToNat_two, hm],
        by rw [digitsToNat_one, hd], by omega, by omega, by omega, by omega⟩
    · split at h
      · rename_i hg
        simp only [Bool.and_eq_true, decide_eq_true_eq] at hg
        obtain ⟨⟨hbdash, ha⟩, hcd'⟩ := hg
        subst hbdash
        injection h with h
        simp only [Prod.mk.injEq] at h
        obtain ⟨hm, hd⟩ := h
        obtain ⟨had, ha1⟩ := (digit1ok_iff a).mp ha
        obtain ⟨hcd, hd'd, h1, h2⟩ := (day2ok_iff c d').mp hcd'
        have h9 := dv_le_9 had
        exact ⟨[a], [c, d'], rfl, Or.inl rfl, forall_mem_single had, Or.inr rfl,
          forall_mem_pair hcd hd'd, by rw [digitsToNat_one, hm],
          by rw [digitsToNat_two, hd], by omega, by omega, by omega, by omega⟩
      · injection h
  · rename_i a b c d' e
    split at h
    · rename_i hg
      simp only [Bool.and_eq_true, decide_eq_true_eq] at hg
      obtain ⟨⟨hcdash, hab⟩, hde⟩ := hg
      subst hcdash
      injection h with h
      simp only [Prod.mk.injEq] at h
      obtain ⟨hm, hd⟩ := h
      obtain ⟨had, hbd, h1, h2⟩ := (month2ok_iff a b).mp hab
      obtain ⟨hd'd, hed, h3, h4⟩ := (day2ok_iff d' e).mp hde
      exact ⟨[a, b], [d', e], rfl, Or.inr rfl, forall_mem_pair had hbd, Or.inr rfl,
        forall_mem_pair hd'd hed, by rw [digitsToNat_two, hm],
        by rw [digitsToNat_two, hd], by omega, by omega, by omega, by omega⟩
    · injection h
  · injection h

theorem spec_to_parseMD (ms ds : List Char)
    (hms : ms.length = 1 ∨ ms.length = 2) (hmd : ∀ c ∈ ms, isDig c = true)
    (hds : ds.length = 1 ∨ ds.length = 2) (hdd : ∀ c ∈ ds, isDig c = true)
    (hm1 : 1 ≤ digitsToNat ms) (hm2 : digitsToNat ms ≤ 12)
    (hd1 : 1 ≤ digitsToNat ds) (hd2 : digitsToNat ds ≤ 31) :
    parseMDregex (ms ++ '-' :: ds) = some (digitsToNat ms, digitsToNat ds) := by
  rcases hms with h | h
  · obtain ⟨m1, rfl⟩ := List.length_eq_one.mp h
    rw [digitsToNat_one] at hm1 hm2 ⊢
    have hg1 : digit1ok m1 = true :=
      (digit1ok_iff m1).mpr ⟨hmd m1 (by simp), hm1⟩
    rcases hds with h' | h'
    · obtain ⟨e1, rfl⟩ := List.length_eq_one.mp h'
      rw [digitsToNat_one] at hd1 hd2 ⊢
      have hg2 : digit1ok e1 = true :=
        (digit1ok_iff e1).mpr ⟨hdd e1 (by simp), hd1⟩
      simp [parseMDregex, hg1, hg2]
    · obtain ⟨e1, e2, rfl⟩ := List.length_eq_two.mp h'
      rw [digitsToNat_two] at hd1 hd2 ⊢
      have hne : ¬(e1 = '-') := isDig_ne_dash (hdd e1 (by simp))
      have hg2 : day2ok e1 e2 = true :=
        (day2ok_iff e1 e2).mpr ⟨hdd e1 (by simp), hdd e2 (by simp), hd1, hd2⟩
      simp [parseMDregex, hne, hg1, hg2]
  · obtain ⟨m1, m2, rfl⟩ := List.length_eq_two.mp h
    rw [digitsToNat_two] at hm1 hm2 ⊢
    have hg1 : month2ok m1 m2 = true :=
      (month2ok_iff m1 m2).mpr ⟨hmd m1 (by simp), hmd m2 (by simp), hm1, hm2⟩
    rcases hds with h' | h'
    · obtain ⟨e1, rfl⟩ := List.length_eq_one.mp h'
      rw [digitsToNat_one] at hd1 hd2 ⊢
      have hg2 : digit1ok e1 = true :=
        (digit1ok_iff e1).mpr ⟨hdd e1 (by simp), hd1⟩
      simp [parseMDregex, hg1, hg2]
    · obtain ⟨e1, e2, rfl⟩ := List.length_eq_two.mp h'
      rw [digitsToNat_two] at hd1 hd2 ⊢
      have hg2 : day2ok e1 e2 = true :=
        (day2ok_iff e1 e2).mpr ⟨hdd e1 (by simp), hdd e2 (by simp), hd1, hd2⟩
      simp [parseMDregex, hg1, hg2]

theorem strptimeList_to_spec : ∀ {cs : List Char} {y m d : Nat},
    strptimeList cs = some (y, m, d) → SpecDateAt cs y m d := by
  intro cs y m d h
  unfold strptimeList at h
  split at h
  · rename_i y1 y2 y3 y4 rest
    split at h
    · rename_i hdig
      simp only [Bool.and_eq_true, decide_eq_true_eq] at hdig
      obtain ⟨⟨⟨h1, h2⟩, h3⟩, h4⟩ := hdig
      split at h
      · rename_i m' d' hmd
        have h' : (if (1 ≤ 1000 * dv y1 + 100 * dv y2 + 10 * dv y3 + dv y4 &&
              d' ≤ daysInMonth (1000 * dv y1 + 100 * dv y2 + 10 * dv y3 + dv y4) m')
            then some ((1000 * dv y1 + 100 * dv y2 + 10 * dv y3 + dv y4), m', d')
            else none) = some (y, m, d) := h
        split at h'
        · rename_i hcal
          simp only [Bool.and_eq_true, decide_eq_true_eq] at hcal
          obtain ⟨hy1, hdm⟩ := hcal
          injection h' with h'
          simp only [Prod.mk.injEq] at h'
          obtain ⟨hyv, rfl, rfl⟩ := h'
          obtain ⟨ms, ds, hrest, hl1, hdg1, hl2, hdg2, hv1, hv2, hbm1, hbm2, hbd1, hbd2⟩ :=
            parseMD_spec hmd
          subst hrest
          rw [hyv] at hy1 hdm
          exact ⟨[y1, y2, y3, y4], ms, ds, by simp, rfl,
            forall_mem_quad h1 h2 h3 h4, hl1, hdg1, hl2, hdg2,
            by rw [digitsToNat_four, hyv], hv1, hv2, hy1, hbm1, hbm2, hbd1, hdm⟩
        · injection h'
      · injection h
    · injection h
  · injection h

theorem spec_to_strptimeList : ∀ {cs : List Char} {y m d : Nat},
    SpecDateAt cs y m d → strptimeList cs = some (y, m, d) := by
  intro cs y m d h
  obtain ⟨ys, ms, ds, hcs, hy4, hyd, hl1, hd1, hl2, hd2, hv1, hv2, hv3,
    hb1, hb2, hb3, hb4, hb5⟩ := h
  obtain ⟨y1, y2, y3, y4, rfl⟩ := length_eq_four hy4
  subst hcs
  show strptimeList (y1 :: y2 :: y3 :: y4 :: '-' :: (ms ++ '-' :: ds)) = _
  rw [strptimeList]
  have hdig : (isDig y1 && isDig y2 && isDig y3 && isDig y4) = true := by
    simp [hyd y1 (by simp), hyd y2 (by simp), hyd y3 (by simp), hyd y4 (by simp)]
  rw [if_pos hdig]
  rw [spec_to_parseMD ms ds hl1 hd1 hl2 hd2
    (by rw [hv2]; exact hb2) (by rw [hv2]; exact hb3)
    (by rw [hv3]; exact hb4) (by rw [hv3]; exact le_trans hb5 (daysInMonth_le_31 y m))]
  have hyval : 1000 * dv y1 + 100 * dv y2 + 10 * dv y3 + dv y4 = y := by
    rw [← hv1, digitsToNat_four]
  simp only [hyval, hv2, hv3]
  have hcond : (1 ≤ y && d ≤ daysInMonth y m) = true := by
    simp only [Bool.and_eq_true, decide_eq_true_eq]
    exact ⟨hb1, hb5⟩
  rw [if_pos hcond]


theorem specDate_has_dash {cs : List Char} {y m d : Nat}
    (h : SpecDateAt cs y m d) : '-' ∈ cs := by
  unfold SpecDateAt at h
  obtain ⟨ys, ms, ds, hcs, -⟩ := h
  subst hcs
  simp

/-- C6 (amended): `validate_date_format` accepts exactly the strings made
of a four-digit year, a one- or two-digit month and a one- or two-digit day
separated by hyphens and denoting a valid calendar date (zero padding of
month and day optional, as `strptime`'s `%Y-%m-%d` accepts), returning the
zero-padded ISO-8601 midnight form; every other string raises an
invalid-argument error. -/
theorem claim_C6 (s : String) :
    (∀ out : String, validate_date_format s = Except.ok out ↔
      ∃ y m d : Nat, SpecDateAt s.data y m d ∧ out = fmtYMD y m d ++ "T00:00:00")
    ∧ ((¬ ∃ y m d : Nat, SpecDateAt s.data y m d) →
        validate_date_format s = Except.error dateFormatErr) := by
  unfold validate_date_format strptimeYMD
  cases hs : strptimeList s.data with
  | some ymd =>
    obtain ⟨y, m, d⟩ := ymd
    refine ⟨?_, ?_⟩
    · intro out
      constructor
      · intro hok
        injection hok with hout
        exact ⟨y, m, d, strptimeList_to_spec hs, hout.symm⟩
      · rintro ⟨y', m', d', hspec, rfl⟩
        have h2 := spec_to_strptimeList hspec
        rw [hs] at h2
        injection h2 with h2
        simp only [Prod.mk.injEq] at h2
        obtain ⟨rfl, rfl, rfl⟩ := h2
        rfl
    · intro hn
      exact absurd ⟨y, m, d, strptimeList_to_spec hs⟩ hn
  | none =>
    refine ⟨?_, fun _ => rfl⟩
    intro out
    constructor
    · intro hok
      injection hok
    · rintro ⟨y', m', d', hspec, rfl⟩
      have h2 := spec_to_strptimeList hspec
      rw [hs] at h2
      injection h2

/-- C6 counterexample: the claim says every string not in exact
`YYYY-MM-DD` shape is rejected, but the code accepts `"2024-1-5"`. -/
theorem claim_C6_counterexample :
    inShapeYYYYMMDD "2024-1-5" = false
    ∧ validate_date_format "2024-1-5" = Except.ok "2024-01-05T00:00:00" :=
  ⟨rfl, rfl⟩

/-- C6 witness: the amended characterization at two concrete inputs. -/
theorem claim_C6_witness :
    validate_date_format "2024-01-15" = Except.ok "2024-01-15T00:00:00"
    ∧ validate_date_format "01/15/2024" = Except.error dateFormatErr := by
  constructor
  · exact ((claim_C6 "2024-01-15").1 "2024-01-15T00:00:00").mpr
      ⟨2024, 1, 15, ⟨['2', '0', '2', '4'], ['0', '1'], ['1', '5'], by decide⟩, by decide⟩
  · refine (claim_C6 "01/15/2024").2 ?_
    rintro ⟨y, m, d, hspec⟩
    have hd := specDate_has_dash hspec
    revert hd
    decide

end Sheetcheater
